import Mathlib

/- Verification of the Hunter ceiling-fan remote decoder, src/src/devices/hunter.c.

   A row of the rtl_433 bit buffer is modelled as a `List Bool` holding exactly the
   row's valid bits in transmission order (the C code stores them packed MSB-first in
   bytes together with a separate per-row bit count); a bit matrix is the list of its
   rows.  The generic bit-buffer primitives (`bitbuffer_invert`, `bitbuffer_search`,
   `bitbuffer_extract_bytes`) live outside src/ and are modelled from the spec. -/

/-- Message length constant of hunter.c: `#define HUNTER_BITLEN 78`. -/
def HUNTER_BITLEN : Nat := 78

/-- Preamble length constant of hunter.c: `#define HUNTER_PREAMBLE_BITLEN 12`. -/
def HUNTER_PREAMBLE_BITLEN : Nat := 12

/-- Modelled from the spec: the polarity normalizer flips every bit of one row. -/
def invertRow (row : List Bool) : List Bool := row.map not

/-- Modelled from the spec: `bitbuffer_invert` (generic bit-buffer utility, not under
    src/) "flips every bit in the entire matrix exactly once". -/
def bitbuffer_invert (bitbuffer : List (List Bool)) : List (List Bool) :=
  bitbuffer.map invertRow

/-- Whether `pat` occurs bit-for-bit at the head of `l` (the whole pattern must fit). -/
def matchAt : List Bool → List Bool → Bool
  | _, [] => true
  | [], _ :: _ => false
  | b :: l, p :: ps => (b == p) && matchAt l ps

/-- Modelled from the spec: `bitbuffer_search` (generic bit-buffer utility, not under
    src/) searches a row from its start for the first exact occurrence of the given
    bit pattern and returns its bit index, or the row's bit length as a "not found"
    sentinel.  A match must lie entirely inside the row. -/
def bitbuffer_search : List Bool → List Bool → Nat
  | [], _ => 0
  | b :: l, pat => if matchAt (b :: l) pat then 0 else bitbuffer_search l pat + 1

/-- Bit `i` of a row; bits past the end of the row read as 0.  (hunter.c only ever
    uses bits the length guard has shown to be present, or bits that are shifted out
    again, so the default never influences a decoded value.) -/
def getBit (row : List Bool) (i : Nat) : Bool := row.getD i false

/-- Numeric value (0 or 1) of bit `i` of a row. -/
def bitVal (row : List Bool) (i : Nat) : Nat := if getBit row i then 1 else 0

/-- Modelled from the spec: one output byte of `bitbuffer_extract_bytes` (generic
    bit-buffer utility, not under src/) — the 8 consecutive row bits starting at bit
    index `pos`, most-significant bit first. -/
def extractByte (row : List Bool) (pos : Nat) : Nat :=
  128 * bitVal row pos + 64 * bitVal row (pos + 1) + 32 * bitVal row (pos + 2) +
    16 * bitVal row (pos + 3) + 8 * bitVal row (pos + 4) + 4 * bitVal row (pos + 5) +
    2 * bitVal row (pos + 6) + bitVal row (pos + 7)

/-- The command field of hunter.c: two bytes extracted at bit `start_pos + 43`,
    combined as `c[0] << 8 | c[1]` and right-shifted by 6 to drop the padding. -/
def hunter_command (row : List Bool) (start_pos : Nat) : Nat :=
  (extractByte row (start_pos + 43) <<< 8 ||| extractByte row (start_pos + 43 + 8)) >>> 6

/-- The inverse-command field of hunter.c: two bytes extracted at bit
    `start_pos + 43 + 10 + 2`, combined as `ic[0] << 8 | ic[1]` and right-shifted
    by 6 to drop the padding. -/
def hunter_icommand (row : List Bool) (start_pos : Nat) : Nat :=
  (extractByte row (start_pos + 43 + 10 + 2) <<< 8 |||
    extractByte row (start_pos + 43 + 10 + 2 + 8)) >>> 6

/-- Uppercase hexadecimal digit, as produced by `sprintf "%02X"`. -/
def hexDigit (n : Nat) : Char :=
  if n < 10 then Char.ofNat (48 + n) else Char.ofNat (55 + n)

/-- Two-digit uppercase hexadecimal rendering of one byte (`sprintf "%02X"`). -/
def byteHex (b : Nat) : String :=
  String.mk [hexDigit (b / 16 % 16), hexDigit (b % 16)]

/-- The remote id string of hunter.c: 40 bits extracted at `start_pos + 1` as five
    bytes, each printed as two uppercase hex digits. -/
def remote_id_string (row : List Bool) (start_pos : Nat) : String :=
  byteHex (extractByte row (start_pos + 1)) ++ byteHex (extractByte row (start_pos + 9)) ++
    byteHex (extractByte row (start_pos + 17)) ++ byteHex (extractByte row (start_pos + 25)) ++
    byteHex (extractByte row (start_pos + 33))

/-- The target classification of hunter.c (`target_string`): "Fan" for the fan
    command set, "Light" for the light command set, otherwise the initial value
    "Unknown". -/
def hunter_target (command : Nat) : String :=
  if command = 4 ∨ command = 32 ∨ command = 35 ∨ command = 64 ∨ command = 98 then
    "Fan"
  else if command = 10 ∨ command = 11 ∨ command = 12 ∨ command = 13 ∨ command = 14 ∨
      command = 15 ∨ command = 72 ∨ command = 73 ∨ command = 138 ∨ command = 266 ∨
      command = 768 then
    "Light"
  else
    "Unknown"

/-- The action label of hunter.c (`action_string`): the switch inside the fan branch,
    the switch inside the light branch, otherwise the initial value "Unknown". -/
def hunter_action (command : Nat) : String :=
  if command = 4 ∨ command = 32 ∨ command = 35 ∨ command = 64 ∨ command = 98 then
    if command = 4 then "Speed 33%"
    else if command = 32 then "Speed 66%"
    else if command = 64 then "Speed 100%"
    else if command = 35 then "Toggle"
    else if command = 98 then "Off"
    else "Unknown"
  else if command = 10 ∨ command = 11 ∨ command = 12 ∨ command = 13 ∨ command = 14 ∨
      command = 15 ∨ command = 72 ∨ command = 73 ∨ command = 138 ∨ command = 266 ∨
      command = 768 then
    if command = 10 then "Brightness 12.5%"
    else if command = 11 then "Brightness 25%"
    else if command = 12 then "Brightness 37.5%"
    else if command = 13 then "Brightness 50%"
    else if command = 14 then "Brightness 62.5%"
    else if command = 15 then "Brightness 75%"
    else if command = 72 then "Brightness 87.5%"
    else if command = 73 then "Brightness 100%"
    else if command = 138 then "On"
    else if command = 266 then "Off"
    else if command = 768 then "Toggle"
    else "Unknown"
  else
    "Unknown"

/-- One output record of hunter.c, with the fields passed to `data_make` in order. -/
structure DecodedRecord where
  model : String
  id : String
  command : Nat
  target : String
  action : String
deriving Repr, DecidableEq

/-- The record hunter.c builds for a validated row. -/
def hunter_mk_record (row : List Bool) (start_pos : Nat) : DecodedRecord :=
  { model := "Hunter"
    id := remote_id_string row start_pos
    command := hunter_command row start_pos
    target := hunter_target (hunter_command row start_pos)
    action := hunter_action (hunter_command row start_pos) }

/-- Field extraction and validation of hunter.c for one row with a located payload:
    the row is discarded when `(command & icommand) != 0 || (command | icommand) != 1023`,
    otherwise one record is produced. -/
def hunter_extract (row : List Bool) (start_pos : Nat) : Option DecodedRecord :=
  if hunter_command row start_pos &&& hunter_icommand row start_pos ≠ 0 ∨
      hunter_command row start_pos ||| hunter_icommand row start_pos ≠ 1023 then
    none
  else
    some (hunter_mk_record row start_pos)

/-- The 12-bit preamble pattern hunter.c searches for: the first 12 bits, MSB first,
    of the byte array 0x00 0x0f — i.e. twelve 0 bits.  The whole buffer is inverted
    before the search, so this corresponds to 0xFFF in the caller's matrix. -/
def preamble_pattern : List Bool := List.replicate 12 false

/-- Payload start used by hunter.c for a row: the position returned by
    `bitbuffer_search` for the preamble pattern, plus 12 to skip the preamble. -/
def hunter_start (row : List Bool) : Nat :=
  bitbuffer_search row preamble_pattern + 12

/-- One iteration of the row loop of hunter.c, acting on an already-inverted row:
    `continue` when the preamble is missing (`start_pos > bits_per_row`), when the
    remaining payload is shorter than `HUNTER_BITLEN - HUNTER_PREAMBLE_BITLEN` bits,
    or when the complement check fails; otherwise emit one record. -/
def hunter_row (row : List Bool) : Option DecodedRecord :=
  if hunter_start row > row.length then none
  else if row.length - hunter_start row < HUNTER_BITLEN - HUNTER_PREAMBLE_BITLEN then none
  else hunter_extract row (hunter_start row)

/-- Accumulation of one row's outcome in hunter.c: a good row sets `result = 1` and
    outputs its record; a bad row leaves the accumulator unchanged. -/
def hunter_step (acc : Nat × List DecodedRecord) (row : List Bool) : Nat × List DecodedRecord :=
  match hunter_row row with
  | some rec => (1, acc.2 ++ [rec])
  | none => acc

/-- The decoder `hunter_decode`: invert the whole bit buffer, scan every row in
    order, and return the C function's `result` together with the list of records
    passed to `decoder_output_data`, in emission order. -/
def hunter_decode (bitbuffer : List (List Bool)) : Nat × List DecodedRecord :=
  (bitbuffer_invert bitbuffer).foldl hunter_step (0, [])

/-- The caller's bit matrix as `hunter_decode` leaves it.  The only statement in
    hunter.c that writes to the caller's buffer is the single `bitbuffer_invert`
    call (`bitbuffer_search` and `bitbuffer_extract_bytes` only read it), so after
    the call the buffer holds the inversion of its previous contents. -/
def hunter_decode_buffer_after (bitbuffer : List (List Bool)) : List (List Bool) :=
  bitbuffer_invert bitbuffer

/-- Mapping table as the spec words it, for comparison with the code's mapping:
    fan codes 4, 32, 35, 64, 98 map respectively to "Speed 33%", "Speed 66%",
    "Toggle", "Speed 100%", "Off"; light codes 10, 11, 12, 13, 14, 15, 72, 73, 138,
    266, 768 map respectively to "Brightness 12.5%" … "Toggle"; every other code
    maps to ("Unknown", "Unknown"). -/
def spec_map (c : Nat) : String × String :=
  if c = 4 then ("Fan", "Speed 33%")
  else if c = 32 then ("Fan", "Speed 66%")
  else if c = 35 then ("Fan", "Toggle")
  else if c = 64 then ("Fan", "Speed 100%")
  else if c = 98 then ("Fan", "Off")
  else if c = 10 then ("Light", "Brightness 12.5%")
  else if c = 11 then ("Light", "Brightness 25%")
  else if c = 12 then ("Light", "Brightness 37.5%")
  else if c = 13 then ("Light", "Brightness 50%")
  else if c = 14 then ("Light", "Brightness 62.5%")
  else if c = 15 then ("Light", "Brightness 75%")
  else if c = 72 then ("Light", "Brightness 87.5%")
  else if c = 73 then ("Light", "Brightness 100%")
  else if c = 138 then ("Light", "On")
  else if c = 266 then ("Light", "Off")
  else if c = 768 then ("Light", "Toggle")
  else ("Unknown", "Unknown")

/-- The 8 bits of one byte value, MSB first. -/
def byteBits (n : Nat) : List Bool :=
  [n.testBit 7, n.testBit 6, n.testBit 5, n.testBit 4, n.testBit 3, n.testBit 2,
    n.testBit 1, n.testBit 0]

/-- The 10 bits of a 10-bit field value, MSB first. -/
def bits10 (n : Nat) : List Bool :=
  [n.testBit 9, n.testBit 8, n.testBit 7, n.testBit 6, n.testBit 5, n.testBit 4,
    n.testBit 3, n.testBit 2, n.testBit 1, n.testBit 0]

/-- The 40 id bits of 0x0102030405, MSB first. -/
def idBits : List Bool :=
  byteBits 0x01 ++ byteBits 0x02 ++ byteBits 0x03 ++ byteBits 0x04 ++ byteBits 0x05

/-- Test vector: the row of the spec's end-to-end scenario 1 read literally —
    preamble 111111111111, guard bit 1, the 40 bits of 0x0102030405, the 10 command
    bits 0000000100, guard bits 11, the 10 inverse bits 1111111011 (75 bits). -/
def rowC5lit : List Bool :=
  List.replicate 12 true ++ [true] ++ idBits ++ bits10 4 ++ [true, true] ++ bits10 1019

/-- Test vector: scenario 1's pieces padded out to the layout hunter.c documents
    (the two 0 gap bits before the command and a trailing 0), still with the
    payload bits taken at face value (78 bits). -/
def rowC5pad : List Bool :=
  List.replicate 12 true ++ [true] ++ idBits ++ [false, false] ++ bits10 4 ++
    [true, true] ++ bits10 1019 ++ [false]

/-- Payload, in the post-inversion view hunter.c extracts from, that carries id
    0x0102030405, command 4 and inverse command 1019 in the documented layout. -/
def payloadGood : List Bool :=
  [true] ++ idBits ++ [false, false] ++ bits10 4 ++ [true, true] ++ bits10 1019 ++ [false]

/-- Test vector: a 78-bit caller's row that hunter.c decodes to command 4 — the
    0xFFF preamble followed by the bitwise complement of `payloadGood` (the decoder
    inverts the buffer before extracting). -/
def rowC5good : List Bool :=
  List.replicate 12 true ++ payloadGood.map not

/-- The record hunter.c emits for `rowC5good`. -/
def recC5 : DecodedRecord :=
  { model := "Hunter", id := "0102030405", command := 4, target := "Fan",
    action := "Speed 33%" }

/-- Payload, post-inversion view, carrying command 138 and inverse 885 with an
    all-zero id. -/
def payload138 : List Bool :=
  [true] ++ List.replicate 40 false ++ [false, false] ++ bits10 138 ++ [true, true] ++
    bits10 885 ++ [false]

/-- Test vector: a caller's row that decodes to command 138 (Light / On). -/
def row138 : List Bool :=
  List.replicate 12 true ++ payload138.map not

/-- Test vector: a short garbled row without any 0xFFF preamble. -/
def rowNoPre : List Bool := List.replicate 10 false

/-- Test vector: a row with the 0xFFF preamble but only 10 payload bits. -/
def rowShort : List Bool := List.replicate 12 true ++ List.replicate 10 false

/-- Payload, post-inversion view, with command 5 and inverse 5: the complement
    check fails because 5 &&& 5 = 5. -/
def payloadBadSum : List Bool :=
  [true] ++ List.replicate 40 false ++ [false, false] ++ bits10 5 ++ [true, true] ++
    bits10 5 ++ [false]

/-- Test vector: a caller's row whose complement check fails. -/
def rowBadSum : List Bool :=
  List.replicate 12 true ++ payloadBadSum.map not

/-- Test vector: an already-inverted row whose extracted pair is command 5 and
    inverse 2 — disjoint (5 &&& 2 = 0) but not complementary (5 ||| 2 = 7). -/
def wrowC1 : List Bool :=
  List.replicate 12 false ++ [true] ++ List.replicate 40 false ++ [false, false] ++
    bits10 5 ++ [true, true] ++ bits10 2 ++ [false]

/-- Test vector: a caller's row whose first 12-one run starts at bit 1 (the row
    does not begin with the preamble) and that contains a second 12-one run later
    in the payload (79 bits, so 66 bits remain after bit 13). -/
def wrowC2 : List Bool :=
  [false] ++ List.replicate 12 true ++ List.replicate 20 false ++
    List.replicate 12 true ++ List.replicate 34 false

theorem land_zero_add_aux :
    ∀ (n a b : Nat), a < 2 ^ n → a &&& b = 0 → a + b = a ||| b := by
  intro n
  induction n with
  | zero =>
    intro a b ha h
    rw [pow_zero] at ha
    have ha0 : a = 0 := by omega
    subst ha0
    simp [Nat.zero_or]
  | succ n ih =>
    intro a b ha h
    have hd2 : a / 2 &&& b / 2 = 0 := by
      rw [← Nat.and_div_two, h]
    have hpow : 2 ^ (n + 1) = 2 ^ n * 2 := by rw [pow_succ]
    have ha2 : a / 2 < 2 ^ n := by omega
    have IH := ih (a / 2) (b / 2) ha2 hd2
    have e1 := Nat.div_add_mod a 2
    have e2 := Nat.div_add_mod b 2
    have e3 := Nat.div_add_mod (a ||| b) 2
    have e4 : (a ||| b) / 2 = a / 2 ||| b / 2 := Nat.or_div_two
    have hp : ¬(a % 2 = 1 ∧ b % 2 = 1) := by
      intro hc
      have hone := Nat.and_mod_two_eq_one.mpr hc
      rw [h] at hone
      simp at hone
    have hiff : (a ||| b) % 2 = 1 ↔ a % 2 = 1 ∨ b % 2 = 1 := Nat.or_mod_two_eq_one
    omega

theorem land_zero_add (a b : Nat) (h : a &&& b = 0) : a + b = a ||| b :=
  land_zero_add_aux a a b (Nat.lt_two_pow a) h

theorem hunter_foldl_eq (rows : List (List Bool)) :
    ∀ (n : Nat) (recs : List DecodedRecord),
      rows.foldl hunter_step (n, recs) =
        (if rows.filterMap hunter_row = [] then n else 1,
          recs ++ rows.filterMap hunter_row) := by
  induction rows with
  | nil => intro n recs; simp
  | cons r rs ih =>
    intro n recs
    rw [List.foldl_cons, List.filterMap_cons]
    simp only [hunter_step]
    cases h : hunter_row r with
    | none => exact ih n recs
    | some rec =>
      rw [ih 1 (recs ++ [rec])]
      simp [List.append_assoc]

theorem hunter_decode_eq (m : List (List Bool)) :
    hunter_decode m =
      (if (bitbuffer_invert m).filterMap hunter_row = [] then 0 else 1,
        (bitbuffer_invert m).filterMap hunter_row) := by
  rw [hunter_decode, hunter_foldl_eq]
  simp

theorem hunter_decode_records (m : List (List Bool)) :
    (hunter_decode m).2 = m.filterMap (fun row => hunter_row (invertRow row)) := by
  rw [hunter_decode_eq]
  simp [bitbuffer_invert, List.filterMap_map, Function.comp_def]

theorem matchAt_map_not (l p : List Bool) :
    matchAt (l.map not) (p.map not) = matchAt l p := by
  induction l generalizing p with
  | nil => cases p <;> simp [matchAt]
  | cons b l ih =>
    cases p with
    | nil => simp [matchAt]
    | cons q p =>
      simp only [List.map_cons, matchAt, ih]
      cases b <;> cases q <;> rfl

theorem bitbuffer_search_map_not (l p : List Bool) :
    bitbuffer_search (l.map not) (p.map not) = bitbuffer_search l p := by
  induction l with
  | nil => rfl
  | cons b l ih =>
    simp only [List.map_cons, bitbuffer_search]
    rw [show (not b :: l.map not) = ((b :: l).map not) from rfl, matchAt_map_not]
    cases h : matchAt (b :: l) p <;> simp [h, ih]

theorem map_not_drop (l : List Bool) (n : Nat) :
    (l.map not).drop n = (l.drop n).map not := by
  induction l generalizing n with
  | nil => simp
  | cons b t ih =>
    cases n with
    | zero => simp
    | succ n => exact ih n

theorem bitbuffer_search_eq_of_first (row pat : List Bool) (k : Nat)
    (hk : matchAt (row.drop k) pat = true)
    (hmin : ∀ j, j < k → matchAt (row.drop j) pat = false) :
    bitbuffer_search row pat = k := by
  induction k generalizing row with
  | zero =>
    rw [List.drop_zero] at hk
    cases row with
    | nil =>
      cases pat with
      | nil => rfl
      | cons q ps => simp [matchAt] at hk
    | cons b l => simp [bitbuffer_search, hk]
  | succ k ih =>
    have h0 := hmin 0 (Nat.succ_pos k)
    rw [List.drop_zero] at h0
    cases row with
    | nil =>
      rw [List.drop_nil] at hk
      rw [h0] at hk
      exact absurd hk (by decide)
    | cons b l =>
      rw [bitbuffer_search, if_neg (by simp [h0])]
      have hrec : bitbuffer_search l pat = k := by
        apply ih
        · exact hk
        · intro j hj
          exact hmin (j + 1) (Nat.succ_lt_succ hj)
      omega

/-- C1: for every row with a located payload of sufficient length, the row is
    accepted — `hunter_row` emits a record — exactly when the extracted 10-bit
    command and inverse-command satisfy both `command &&& icommand = 0` and
    `command ||| icommand = 1023`.  (The witness exhibits a row whose pair (5, 2)
    satisfies only the disjointness half and is rejected.) -/
theorem hunter_claim1 (row : List Bool)
    (h1 : hunter_start row ≤ row.length)
    (h2 : 66 ≤ row.length - hunter_start row) :
    (hunter_row row).isSome = true ↔
      (hunter_command row (hunter_start row) &&& hunter_icommand row (hunter_start row) = 0 ∧
        hunter_command row (hunter_start row) ||| hunter_icommand row (hunter_start row) = 1023) := by
  have hb : HUNTER_BITLEN - HUNTER_PREAMBLE_BITLEN = 66 := rfl
  rw [hunter_row, hb, if_neg (by omega), if_neg (by omega)]
  by_cases hA : hunter_command row (hunter_start row) &&& hunter_icommand row (hunter_start row) = 0 <;>
    by_cases hB : hunter_command row (hunter_start row) ||| hunter_icommand row (hunter_start row) = 1023 <;>
    simp [hunter_extract, hA, hB]

/-- Witness for C1: a concrete already-inverted row whose extracted pair is
    command 5, inverse 2 — disjoint but not complementary — and which is rejected. -/
theorem hunter_claim1_witness :
    (hunter_command wrowC1 (hunter_start wrowC1) = 5 ∧
      hunter_icommand wrowC1 (hunter_start wrowC1) = 2) ∧
    ¬((hunter_row wrowC1).isSome = true) := by
  refine ⟨by decide, ?_⟩
  rw [hunter_claim1 wrowC1 (by decide) (by decide)]
  decide

/-- C2: for every caller's row in which the 12-bit pattern 0xFFF (twelve one bits)
    first occurs at bit index `k`, with at least 66 bits remaining after bit
    `k + 12`, hunter_decode's per-row processing (which runs on the inverted row)
    uses `k + 12` as the payload start: `hunter_start` returns `k + 12` and the row
    outcome is exactly field extraction relative to `k + 12`.  The preamble need
    not start at offset 0, and the first occurrence is the one used. -/
theorem hunter_claim2 (row : List Bool) (k : Nat)
    (hocc : matchAt (row.drop k) (List.replicate 12 true) = true)
    (hfirst : ∀ j, j < k → matchAt (row.drop j) (List.replicate 12 true) = false)
    (hlen : k + 12 + 66 ≤ row.length) :
    hunter_start (invertRow row) = k + 12 ∧
    hunter_row (invertRow row) = hunter_extract (invertRow row) (k + 12) := by
  have hpat : preamble_pattern = (List.replicate 12 true).map not := by
    simp [preamble_pattern, List.map_replicate]
  have hdrop : ∀ j, (invertRow row).drop j = (row.drop j).map not := by
    intro j
    rw [invertRow, map_not_drop]
  have hsearch : bitbuffer_search (invertRow row) preamble_pattern = k := by
    apply bitbuffer_search_eq_of_first
    · rw [hdrop k, hpat, matchAt_map_not]
      exact hocc
    · intro j hj
      rw [hdrop j, hpat, matchAt_map_not]
      exact hfirst j hj
  have hstart : hunter_start (invertRow row) = k + 12 := by
    rw [hunter_start, hsearch]
  have hlenrow : (invertRow row).length = row.length := by
    simp [invertRow]
  have hb : HUNTER_BITLEN - HUNTER_PREAMBLE_BITLEN = 66 := rfl
  refine ⟨hstart, ?_⟩
  rw [hunter_row, hstart, hlenrow, hb, if_neg (by omega), if_neg (by omega)]

/-- Witness for C2: a row whose first 0xFFF run starts at bit 1 (not offset 0) and
    which contains a second run later; the payload start used is 1 + 12 = 13. -/
theorem hunter_claim2_witness :
    hunter_start (invertRow wrowC2) = 1 + 12 ∧
    hunter_row (invertRow wrowC2) = hunter_extract (invertRow wrowC2) (1 + 12) :=
  hunter_claim2 wrowC2 1 (by decide) (by decide) (by decide)

/-- C3 (counterexample): the value returned by hunter_decode is not the count of
    decoded records — a matrix whose two rows both validate yields two records but
    return value 1. -/
theorem hunter_claim3_counterexample :
    (hunter_decode [row138, row138]).2.length = 2 ∧
    (hunter_decode [row138, row138]).1 = 1 ∧
    (hunter_decode [row138, row138]).1 ≠ (hunter_decode [row138, row138]).2.length :=
  ⟨rfl, rfl, by decide⟩

/-- C3 (amended): hunter_decode returns 1 when at least one row decoded and 0 when
    none did — an at-least-one indicator, not a record count; 0 still means no
    valid frame was found in the whole matrix. -/
theorem hunter_claim3 (m : List (List Bool)) :
    (hunter_decode m).1 = min 1 (hunter_decode m).2.length := by
  rw [hunter_decode_eq]
  cases h : (bitbuffer_invert m).filterMap hunter_row with
  | nil => simp
  | cons a l => simp

/-- C4 (counterexample): the input bit matrix is not read-only to the decoder —
    hunter.c inverts the caller's buffer in place and returns without restoring it,
    so a one-row matrix holding a single 1 bit comes back changed. -/
theorem hunter_claim4_counterexample :
    hunter_decode_buffer_after [[true]] ≠ [[true]] := by decide

/-- C4 (amended): after hunter_decode returns, the caller's matrix keeps its row
    count and per-row bit lengths, but every valid bit of every row has been
    inverted exactly once. -/
theorem hunter_claim4 (m : List (List Bool)) :
    (hunter_decode_buffer_after m).map List.length = m.map List.length ∧
    ∀ (i j : Nat) (b : Bool), (m[i]?.bind fun r : List Bool => r[j]?) = some b →
      ((hunter_decode_buffer_after m)[i]?.bind fun r : List Bool => r[j]?) = some (!b) := by
  constructor
  · simp [hunter_decode_buffer_after, bitbuffer_invert, invertRow, List.map_map,
      Function.comp_def]
  · intro i j b h
    cases hm : m[i]? with
    | none =>
      rw [hm] at h
      simp at h
    | some r =>
      rw [hm] at h
      simp only [Option.some_bind] at h
      have hafter : (hunter_decode_buffer_after m)[i]? = some (invertRow r) := by
        simp [hunter_decode_buffer_after, bitbuffer_invert, List.getElem?_map, hm]
      rw [hafter]
      simp [invertRow, List.getElem?_map, h]

/-- Witness for C4 (amended): the single 1 bit of the one-row matrix [[1]] reads
    back as 0 after the call. -/
theorem hunter_claim4_witness :
    ((hunter_decode_buffer_after [[true]])[0]?.bind fun r : List Bool => r[0]?) = some (!true) :=
  (hunter_claim4 [[true]]).2 0 0 true rfl

/-- C5 (counterexample): the scenario row read literally does not decode to
    command 4.  The literal concatenation (preamble, guard, id, command bits,
    2 guards, inverse bits) is 75 bits, 63 after the preamble — short of the
    66-bit minimum — so no record is emitted; and even padded out to the
    documented 78-bit layout, the payload bits taken at face value are inverted
    by the decoder before extraction, producing command 1019 (Unknown), not 4. -/
theorem hunter_claim5_counterexample :
    hunter_decode [rowC5lit] = (0, []) ∧
    hunter_decode [rowC5pad] =
      (1, [{ model := "Hunter", id := "FEFDFCFBFA", command := 1019,
             target := "Unknown", action := "Unknown" }]) :=
  ⟨rfl, rfl⟩

/-- C5 (amended): a single 78-bit row consisting of the 12-bit preamble
    111111111111 followed by the bitwise complement of the documented payload
    (guard 1, the 40 id bits of 0x0102030405, two 0 gap bits, the 10 command bits
    0000000100, two 1 guard bits, the 10 inverse bits 1111111011, trailing 0) —
    complemented because hunter_decode inverts the buffer before extracting —
    decodes to exactly one record with id "0102030405", command 4, target "Fan",
    action "Speed 33%". -/
theorem hunter_claim5 :
    hunter_decode [rowC5good] = (1, [recC5]) := rfl

/-- C6: the command-to-(target, action) mapping of hunter.c is total and agrees
    with the spec's table (fan codes 4, 32, 35, 64, 98; light codes 10–15, 72, 73,
    138, 266, 768; everything else maps to ("Unknown", "Unknown")), and every
    command that passes the complement validation yields a record — unknown codes
    included, never an error. -/
theorem hunter_claim6 (c : Nat) :
    (hunter_target c, hunter_action c) = spec_map c ∧
    ∀ (row : List Bool) (p : Nat),
      hunter_command row p &&& hunter_icommand row p = 0 →
      hunter_command row p ||| hunter_icommand row p = 1023 →
      hunter_extract row p = some (hunter_mk_record row p) := by
  constructor
  · rcases eq_or_ne c 4 with h | h4
    · subst h; rfl
    rcases eq_or_ne c 32 with h | h32
    · subst h; rfl
    rcases eq_or_ne c 35 with h | h35
    · subst h; rfl
    rcases eq_or_ne c 64 with h | h64
    · subst h; rfl
    rcases eq_or_ne c 98 with h | h98
    · subst h; rfl
    rcases eq_or_ne c 10 with h | h10
    · subst h; rfl
    rcases eq_or_ne c 11 with h | h11
    · subst h; rfl
    rcases eq_or_ne c 12 with h | h12
    · subst h; rfl
    rcases eq_or_ne c 13 with h | h13
    · subst h; rfl
    rcases eq_or_ne c 14 with h | h14
    · subst h; rfl
    rcases eq_or_ne c 15 with h | h15
    · subst h; rfl
    rcases eq_or_ne c 72 with h | h72
    · subst h; rfl
    rcases eq_or_ne c 73 with h | h73
    · subst h; rfl
    rcases eq_or_ne c 138 with h | h138
    · subst h; rfl
    rcases eq_or_ne c 266 with h | h266
    · subst h; rfl
    rcases eq_or_ne c 768 with h | h768
    · subst h; rfl
    simp [hunter_target, hunter_action, spec_map, h4, h32, h35, h64, h98, h10, h11,
      h12, h13, h14, h15, h72, h73, h138, h266, h768]
  · intro row p h1 h2
    rw [hunter_extract, if_neg (by push_neg; exact ⟨h1, h2⟩)]

/-- Witness for C6: the validated command 1019 is outside both tables, yet the
    row still yields a record (with target and action "Unknown"). -/
theorem hunter_claim6_witness :
    hunter_extract (invertRow rowC5pad) 12 = some (hunter_mk_record (invertRow rowC5pad) 12) :=
  (hunter_claim6 1019).2 (invertRow rowC5pad) 12 (by decide) (by decide)

/-- C7: each per-row failure (no preamble, short payload, checksum mismatch) only
    skips that row: the records of a matrix containing a failing row are exactly
    the records of the matrix without it, and a matrix in which every row fails
    yields (0, no records) rather than an aborting error. -/
theorem hunter_claim7 (m1 m2 : List (List Bool)) (row : List Bool)
    (hfail : hunter_row (invertRow row) = none) :
    (hunter_decode (m1 ++ row :: m2)).2 = (hunter_decode (m1 ++ m2)).2 ∧
    ((∀ r ∈ m1 ++ row :: m2, hunter_row (invertRow r) = none) →
      hunter_decode (m1 ++ row :: m2) = (0, [])) := by
  constructor
  · simp [hunter_decode_records, List.filterMap_append, List.filterMap_cons, hfail]
  · intro hall
    have hnil : (bitbuffer_invert (m1 ++ row :: m2)).filterMap hunter_row = [] := by
      rw [bitbuffer_invert, List.filterMap_map]
      rw [List.filterMap_eq_nil_iff]
      intro a ha
      exact hall a ha
    rw [hunter_decode_eq, hnil]
    simp

/-- Witness for C7: a matrix whose three rows fail in the three distinct ways
    (no preamble, checksum mismatch, short payload) yields (0, no records). -/
theorem hunter_claim7_witness :
    hunter_decode [rowNoPre, rowBadSum, rowShort] = (0, []) :=
  (hunter_claim7 [rowNoPre] [rowShort] rowBadSum (by decide)).2 (by decide)

/-- C8: on the three-row matrix (row 0 garbled without preamble, row 1 a valid
    command-138 frame, row 2 a bit-for-bit duplicate of row 1), hunter_decode
    emits exactly two records, both target "Light" and action "On", in row order. -/
theorem hunter_claim8 :
    hunter_decode [rowNoPre, row138, row138] =
      (1, [{ model := "Hunter", id := "0000000000", command := 138,
             target := "Light", action := "On" },
           { model := "Hunter", id := "0000000000", command := 138,
             target := "Light", action := "On" }]) := rfl

/-- C9: the polarity flip is an involution — applying `bitbuffer_invert` (the
    whole-matrix inversion hunter_decode performs once) twice restores every row
    of the matrix bit for bit. -/
theorem hunter_claim9 (m : List (List Bool)) :
    bitbuffer_invert (bitbuffer_invert m) = m := by
  simp [bitbuffer_invert, invertRow, List.map_map, Function.comp_def]

/-- C10: every record hunter_decode emits carries a 10-bit command
    (command ≤ 1023), and the inverse-command extracted from the same row is
    exactly 1023 - command, its bitwise complement within 10 bits. -/
theorem hunter_claim10 (m : List (List Bool)) (rec : DecodedRecord)
    (h : rec ∈ (hunter_decode m).2) :
    rec.command ≤ 1023 ∧
    ∃ row ∈ m, hunter_row (invertRow row) = some rec ∧
      hunter_icommand (invertRow row) (hunter_start (invertRow row)) =
        1023 - rec.command := by
  rw [hunter_decode_records] at h
  rcases List.mem_filterMap.mp h with ⟨row, hrow, hsome⟩
  have key : hunter_command (invertRow row) (hunter_start (invertRow row)) &&&
        hunter_icommand (invertRow row) (hunter_start (invertRow row)) = 0 ∧
      hunter_command (invertRow row) (hunter_start (invertRow row)) |||
        hunter_icommand (invertRow row) (hunter_start (invertRow row)) = 1023 ∧
      rec.command = hunter_command (invertRow row) (hunter_start (invertRow row)) := by
    rw [hunter_row] at hsome
    split at hsome
    · exact absurd hsome (by simp)
    · split at hsome
      · exact absurd hsome (by simp)
      · rw [hunter_extract] at hsome
        split at hsome
        · exact absurd hsome (by simp)
        · rename_i hcond
          push_neg at hcond
          have hrec : rec = hunter_mk_record (invertRow row) (hunter_start (invertRow row)) := by
            injection hsome with h'
            exact h'.symm
          refine ⟨hcond.1, hcond.2, ?_⟩
          rw [hrec, hunter_mk_record]
  obtain ⟨hA, hB, hC⟩ := key
  have hadd := land_zero_add _ _ hA
  rw [hB] at hadd
  exact ⟨by omega, row, hrow, hsome, by omega⟩

/-- Witness for C10: the record emitted for the concrete command-4 row has
    command 4 ≤ 1023 and inverse-command 1019 = 1023 - 4. -/
theorem hunter_claim10_witness :
    recC5.command ≤ 1023 ∧
    ∃ row ∈ [rowC5good], hunter_row (invertRow row) = some recC5 ∧
      hunter_icommand (invertRow row) (hunter_start (invertRow row)) =
        1023 - recC5.command :=
  hunter_claim10 [rowC5good] recC5 (by decide)
